import Mathlib

/-!
Verification of the log-analysis pipeline in `scripts/steps_chart.py`.

The script extracts seven numeric columns from a log file, validates them,
groups consecutive records by step count, aggregates each group
(mean/std/reps of elapsed, first-of-group for tasks/flops/bytes), appends
derived columns (`time_per_task`, optionally `efficiency`) and writes one
CSV per input.  Here the parsed column table is the input (`Table`), Python
floats are idealised as rationals (the standard-deviation square root lives
in `ℝ`), and an `assert` failure or raised exception is an `Except.error`:
a run that ends in `.error` writes no CSV for that file.
-/

namespace StepsChart

/-- The parsed column table of one input file, one list per field, in the
order of the script's `_columns` table. -/
structure Table where
  elapsed : List ℚ
  iterations : List ℤ
  steps : List ℤ
  tasks : List ℤ
  flops : List ℤ
  bytes : List ℤ
  width : List ℤ
deriving DecidableEq

/-- `same(values)` from the script: every element equals the first
(`all(value == values[0] for value in values)`; vacuously true for an
empty sequence, since the generator body never runs). -/
def same {α : Type*} [DecidableEq α] (values : List α) : Bool :=
  match values with
  | [] => true
  | v₀ :: _ => values.all fun v => decide (v = v₀)

/-- Inner loop state of `group_by`: `lastKey`/`lastGroup` carry the open
group; a key change emits the open group and starts a fresh one. -/
def groupByGo {α β : Type*} [DecidableEq α] (lastKey : α) (lastGroup : List β) :
    List (α × β) → List (α × List β)
  | [] => [(lastKey, lastGroup)]
  | (key, value) :: rest =>
    if key = lastKey then groupByGo lastKey (lastGroup ++ [value]) rest
    else (lastKey, lastGroup) :: groupByGo key [value] rest

/-- `group_by(keys, values)` from the script, over the zipped key/value
pairs.  The Python `last_key` starts as `None`, which differs from every
actual key, so the first pair always opens a group. -/
def group_by {α β : Type*} [DecidableEq α] : List (α × β) → List (α × List β)
  | [] => []
  | (key, value) :: rest => groupByGo key [value] rest

/-- The lengths of the seven column sequences, in `_columns` order
(`[len(column) for column in table.values()]`). -/
def columnLengths (t : Table) : List ℕ :=
  [t.elapsed.length, t.iterations.length, t.steps.length, t.tasks.length,
   t.flops.length, t.bytes.length, t.width.length]

/-- `all(table['tasks'] == table['steps'] * table['width'])`, elementwise
(evaluated only after the equal-length check has passed). -/
def tasksMatch (t : Table) : Bool :=
  (t.tasks.zip (t.steps.zip t.width)).all fun r => decide (r.1 = r.2.1 * r.2.2)

/-- `numpy.mean`: sum divided by length. -/
def npMean (xs : List ℚ) : ℚ := xs.sum / xs.length

/-- The radicand of `numpy.std`: mean of squared deviations from the mean
(population form, divisor = length, numpy's default `ddof=0`). -/
def npVar (xs : List ℚ) : ℚ := ((xs.map fun x => (x - npMean xs) ^ 2).sum) / xs.length

/-- `numpy.std`: square root of the population variance. -/
noncomputable def npStd (xs : List ℚ) : ℝ := Real.sqrt (npVar xs)

/-- `numpy.resize(xs, n)`: repeat the data cyclically to length `n`
(an empty source yields zeros). -/
def npResize (xs : List ℤ) (n : ℕ) : List ℤ :=
  (List.range n).map fun i => xs.getD (i % xs.length) 0

/-- The groups of `group_by(table['steps'], zip(elapsed, tasks, flops, bytes))`:
key = steps value, members = (elapsed, tasks, flops, bytes) tuples. -/
def groupsOf (t : Table) : List (ℤ × List (ℚ × ℤ × ℤ × ℤ)) :=
  group_by (t.steps.zip (t.elapsed.zip (t.tasks.zip (t.flops.zip t.bytes))))

/-- The elapsed components of one group's member tuples. -/
def gElapsed (g : ℤ × List (ℚ × ℤ × ℤ × ℤ)) : List ℚ := g.2.map fun v => v.1

/-- The tasks components of one group's member tuples. -/
def gTasks (g : ℤ × List (ℚ × ℤ × ℤ × ℤ)) : List ℤ := g.2.map fun v => v.2.1

/-- The flops components of one group's member tuples. -/
def gFlops (g : ℤ × List (ℚ × ℤ × ℤ × ℤ)) : List ℤ := g.2.map fun v => v.2.2.1

/-- The bytes components of one group's member tuples. -/
def gBytes (g : ℤ × List (ℚ × ℤ × ℤ × ℤ)) : List ℤ := g.2.map fun v => v.2.2.2

/-- `assert all(same_tasks)`: every group is homogeneous in tasks. -/
def sameTasksAll (t : Table) : Bool := ((groupsOf t).map fun g => same (gTasks g)).all id

/-- `assert all(same_flops)`: every group is homogeneous in flops. -/
def sameFlopsAll (t : Table) : Bool := ((groupsOf t).map fun g => same (gFlops g)).all id

/-- `assert all(same_bytes)`: every group is homogeneous in bytes. -/
def sameBytesAll (t : Table) : Bool := ((groupsOf t).map fun g => same (gBytes g)).all id

/-- Python truthiness of an optional float flag: absent or `0.0` is falsy
(`if peak_flops:` / `elif peak_bytes:`). -/
def truthy : Option ℚ → Bool
  | none => false
  | some x => decide (x ≠ 0)

/-- The aggregated elapsed column: mean of each group's elapsed values. -/
def elapsedAgg (t : Table) : List ℚ := (groupsOf t).map fun g => npMean (gElapsed g)

/-- The aggregated tasks column: first member's tasks value (`tasks[0]`). -/
def tasksAgg (t : Table) : List ℤ := (groupsOf t).map fun g => (gTasks g).headI

/-- The aggregated flops column: first member's flops value (`flops[0]`). -/
def flopsAgg (t : Table) : List ℤ := (groupsOf t).map fun g => (gFlops g).headI

/-- The aggregated bytes column: first member's bytes value (`bytes[0]`). -/
def bytesAgg (t : Table) : List ℤ := (groupsOf t).map fun g => (gBytes g).headI

/-- The failure modes of the script: the four consistency asserts, the
tuple-unpacking `ValueError` on an empty table, the three per-group
homogeneity asserts, and the driver's mutual-exclusion exception.  Any of
these aborts processing before a CSV is written. -/
inductive Err where
  | assertLengths
  | assertIterations
  | assertWidth
  | assertTasksEq
  | unpackError
  | assertSameTasks
  | assertSameFlops
  | assertSameBytes
  | configError
deriving DecidableEq

/-- The final table written to CSV: one entry per group in each column.
`efficiency = none` means the column is absent from the output. -/
structure Output where
  steps : List ℤ
  elapsed : List ℚ
  std : List ℝ
  reps : List ℕ
  tasks : List ℤ
  flops : List ℤ
  bytes : List ℤ
  iterations : List ℤ
  width : List ℤ
  time_per_task : List ℚ
  efficiency : Option (List ℚ)

/-- The successful-path output of `analyze`: aggregation, broadcast of
`iterations`/`width` to one value per group via `numpy.resize`, and the
derived columns (`time_per_task` always; `efficiency` from flops when
`peak_flops` is truthy, else from bytes when `peak_bytes` is truthy,
else absent). -/
noncomputable def outputOf (nodes cores : ℤ) (peak_flops peak_bytes : Option ℚ)
    (t : Table) : Output where
  steps := (groupsOf t).map fun g => g.1
  elapsed := elapsedAgg t
  std := (groupsOf t).map fun g => npStd (gElapsed g)
  reps := (groupsOf t).map fun g => g.2.length
  tasks := tasksAgg t
  flops := flopsAgg t
  bytes := bytesAgg t
  iterations := npResize t.iterations (groupsOf t).length
  width := npResize t.width (groupsOf t).length
  time_per_task :=
    (elapsedAgg t).zipWith
      (fun e ta => e / (ta : ℚ) * (nodes : ℚ) * (cores : ℚ) * 1000) (tasksAgg t)
  efficiency :=
    if truthy peak_flops then
      some ((flopsAgg t).zipWith
        (fun f e => ((f : ℚ) / e / (nodes : ℚ)) / peak_flops.getD 0) (elapsedAgg t))
    else if truthy peak_bytes then
      some ((bytesAgg t).zipWith
        (fun b e => ((b : ℚ) / e / (nodes : ℚ)) / peak_bytes.getD 0) (elapsedAgg t))
    else none

/-- `analyze(filename, ...)` with the parsed table as input.  The four
consistency asserts run in source order; then the grouping comprehension
is computed and unpacked (an empty table makes the unpacking of the empty
result list raise `ValueError`); then the three homogeneity asserts run in
source order; on success the final table is produced (and would be written
to CSV).  `threshold` is accepted but never used. -/
noncomputable def analyze (nodes cores : ℤ) (threshold : ℚ)
    (peak_flops peak_bytes : Option ℚ) (t : Table) : Except Err Output :=
  if !same (columnLengths t) then .error .assertLengths
  else if !same t.iterations then .error .assertIterations
  else if !same t.width then .error .assertWidth
  else if !tasksMatch t then .error .assertTasksEq
  else if (groupsOf t).isEmpty then .error .unpackError
  else if !sameTasksAll t then .error .assertSameTasks
  else if !sameFlopsAll t then .error .assertSameFlops
  else if !sameBytesAll t then .error .assertSameBytes
  else .ok (outputOf nodes cores peak_flops peak_bytes t)

/-- `driver(inputs, summary, ...)`: raise when both peak flags are present
(`is not None`, regardless of value), before touching any file; otherwise
process the files in order, stopping at the first failure.  `summary` is
accepted but never used. -/
noncomputable def driver (inputs : List Table) (summary : Option String)
    (nodes cores : ℤ) (threshold : ℚ)
    (peak_flops peak_bytes : Option ℚ) : Except Err (List Output) :=
  if peak_flops.isSome && peak_bytes.isSome then .error .configError
  else inputs.mapM fun t => analyze nodes cores threshold peak_flops peak_bytes t

/-- Merge one run of `n` copies of `a` onto a run list, coalescing with the
head run when its key is also `a`. -/
def runsCons {α : Type*} [DecidableEq α] (a : α) (n : ℕ) :
    List (α × ℕ) → List (α × ℕ)
  | [] => [(a, n)]
  | (b, m) :: t => if a = b then (a, n + m) :: t else (a, n) :: (b, m) :: t

/-- Modelled from the spec: the maximal consecutive runs of equal values in
a key sequence, each as (key, run length).  This is the specification-side
description of grouping, to be compared with the script's `group_by`. -/
def maximalRuns {α : Type*} [DecidableEq α] : List α → List (α × ℕ)
  | [] => []
  | a :: rest => runsCons a 1 (maximalRuns rest)

/-- A consistent one-record table: tasks 6 = steps 2 × width 3. -/
def tblOne : Table := ⟨[1], [10], [2], [6], [5], [7], [3]⟩

/-- A consistent two-record table forming one group of two repetitions. -/
def tblTwo : Table := ⟨[1, 3], [5, 5], [2, 2], [4, 4], [6, 6], [8, 8], [2, 2]⟩

/-- A table whose column lengths disagree. -/
def tblBadLen : Table := ⟨[1], [], [], [], [], [], []⟩

/-- A table with equal lengths but varying iterations. -/
def tblBadIter : Table := ⟨[1, 1], [1, 2], [1, 1], [1, 1], [1, 1], [1, 1], [1, 1]⟩

/-- A table with constant iterations but varying width. -/
def tblBadWidth : Table := ⟨[1, 1], [1, 1], [1, 1], [1, 1], [1, 1], [1, 1], [1, 2]⟩

/-- A table violating tasks = steps × width. -/
def tblBadTasks : Table := ⟨[1], [1], [1], [2], [1], [1], [1]⟩

/-- A table passing all four consistency checks whose single group has
divergent flops values. -/
def tblDivFlops : Table := ⟨[1, 1], [1, 1], [1, 1], [1, 1], [1, 2], [1, 1], [1, 1]⟩

/-- The table of a file in which no field pattern matched at all. -/
def emptyTable : Table := ⟨[], [], [], [], [], [], []⟩

/-! ## Helper lemmas -/

theorem runsCons_succ {α : Type*} [DecidableEq α] (a : α) (n : ℕ)
    (r : List (α × ℕ)) :
    runsCons a (n + 1) r = runsCons a n (runsCons a 1 r) := by
  cases r with
  | nil => simp [runsCons]
  | cons p t =>
    obtain ⟨b, m⟩ := p
    by_cases h : a = b
    · subst h
      simp [runsCons, Nat.add_assoc]
    · simp [runsCons, h]

theorem runsCons_ne {α : Type*} [DecidableEq α] {a b : α} (hab : a ≠ b)
    (n m : ℕ) (r : List (α × ℕ)) :
    runsCons a n (runsCons b m r) = (a, n) :: runsCons b m r := by
  cases r with
  | nil => simp [runsCons, hab]
  | cons p t =>
    obtain ⟨c, k⟩ := p
    by_cases h : b = c
    · subst h
      simp [runsCons, hab]
    · simp [runsCons, h, hab]

theorem groupByGo_spec {α β : Type*} [DecidableEq α] (ps : List (α × β)) :
    ∀ (k : α) (g : List β),
      (groupByGo k g ps).map (fun q => (q.1, q.2.length)) =
        runsCons k g.length (maximalRuns (ps.map Prod.fst)) := by
  induction ps with
  | nil => intro k g; simp [groupByGo, maximalRuns, runsCons]
  | cons p rest ih =>
    obtain ⟨key, v⟩ := p
    intro k g
    by_cases h : key = k
    · subst h
      rw [show groupByGo key g ((key, v) :: rest) = groupByGo key (g ++ [v]) rest from by
        simp [groupByGo]]
      rw [ih key (g ++ [v]), List.map_cons]
      have h1 : maximalRuns (key :: List.map Prod.fst rest) =
          runsCons key 1 (maximalRuns (List.map Prod.fst rest)) := rfl
      rw [h1, ← runsCons_succ]
      simp
    · rw [show groupByGo k g ((key, v) :: rest) =
        (k, g) :: groupByGo key [v] rest from by simp [groupByGo, h]]
      rw [List.map_cons, ih key [v], List.map_cons]
      have h1 : maximalRuns (key :: List.map Prod.fst rest) =
          runsCons key 1 (maximalRuns (List.map Prod.fst rest)) := rfl
      rw [h1, runsCons_ne (Ne.symm h)]
      rfl

theorem group_by_spec {α β : Type*} [DecidableEq α] (ps : List (α × β)) :
    (group_by ps).map (fun q => (q.1, q.2.length)) =
      maximalRuns (ps.map Prod.fst) := by
  cases ps with
  | nil => rfl
  | cons p rest =>
    obtain ⟨k, v⟩ := p
    simpa [group_by, maximalRuns] using groupByGo_spec rest k [v]

theorem same_eq_true_iff {α : Type*} [DecidableEq α] (l : List α) :
    same l = true ↔ ∀ x ∈ l, ∀ y ∈ l, x = y := by
  cases l with
  | nil => simp [same]
  | cons v rest =>
    simp only [same, List.all_eq_true, decide_eq_true_eq]
    constructor
    · intro h x hx y hy
      rw [h x hx, h y hy]
    · intro h x hx
      exact h x hx v (List.mem_cons_self v rest)

theorem all_id_map_elim {α : Type*} {l : List α} {f : α → Bool}
    (h : (l.map f).all id = true) : ∀ g ∈ l, f g = true := by
  intro g hg
  simpa using List.all_eq_true.mp h _ (List.mem_map_of_mem f hg)

theorem npStd_singleton (x : ℚ) : npStd [x] = 0 := by
  simp [npStd, npVar, npMean]

theorem outputOf_reps (nodes cores : ℤ) (pf pb : Option ℚ) (t : Table) :
    (outputOf nodes cores pf pb t).reps = (groupsOf t).map fun g => g.2.length := rfl

theorem outputOf_std (nodes cores : ℤ) (pf pb : Option ℚ) (t : Table) :
    (outputOf nodes cores pf pb t).std = (groupsOf t).map fun g => npStd (gElapsed g) := rfl

theorem outputOf_efficiency (nodes cores : ℤ) (pf pb : Option ℚ) (t : Table) :
    (outputOf nodes cores pf pb t).efficiency =
      if truthy pf then
        some ((flopsAgg t).zipWith
          (fun f e => ((f : ℚ) / e / (nodes : ℚ)) / pf.getD 0) (elapsedAgg t))
      else if truthy pb then
        some ((bytesAgg t).zipWith
          (fun b e => ((b : ℚ) / e / (nodes : ℚ)) / pb.getD 0) (elapsedAgg t))
      else none := rfl

theorem analyze_ok_elim {nodes cores : ℤ} {threshold : ℚ} {pf pb : Option ℚ}
    {t : Table} {out : Output}
    (h : analyze nodes cores threshold pf pb t = .ok out) :
    same (columnLengths t) = true ∧ same t.iterations = true ∧
    same t.width = true ∧ tasksMatch t = true ∧
    (groupsOf t).isEmpty = false ∧ sameTasksAll t = true ∧
    sameFlopsAll t = true ∧ sameBytesAll t = true ∧
    out = outputOf nodes cores pf pb t := by
  unfold analyze at h
  repeat' split at h
  any_goals exact Except.noConfusion h
  rename_i h1 h2 h3 h4 h5 h6 h7 h8
  simp only [Bool.not_eq_true, Bool.not_eq_false, Bool.not_eq_true'] at h1 h2 h3 h4 h6 h7 h8
  injection h with hout
  exact ⟨h1, h2, h3, h4, by simpa using h5, h6, h7, h8, hout.symm⟩

/-! ## Claim theorems -/

/-- Claim C1: grouping is by adjacency, not full partition by key — a new
group starts exactly when a record's steps value differs from the
immediately preceding record's steps value, so the output of `group_by`
has one row per maximal consecutive run of equal steps values; in
particular a steps sequence [1,1,2,1] yields three groups (steps = 1
appearing twice), not two. -/
theorem group_by_adjacent_runs :
    (∀ (keys : List ℤ) (values : List ℚ), keys.length = values.length →
      ((group_by (keys.zip values)).map fun g => (g.1, g.2.length)) =
        maximalRuns keys) ∧
    ((group_by ((([1, 1, 2, 1] : List ℤ).zip ([10, 20, 30, 40] : List ℚ)))).map
      (fun g => (g.1, g.2.length))) = [(1, 2), (2, 1), (1, 1)] := by
  constructor
  · intro keys values h
    rw [group_by_spec, List.map_fst_zip _ _ (le_of_eq h)]
  · decide

/-- Witness for C1 at the concrete step sequence [1,1,2,1]. -/
theorem group_by_adjacent_runs_witness :
    ([1, 1, 2, 1] : List ℤ).length = ([10, 20, 30, 40] : List ℚ).length ∧
    ((group_by ((([1, 1, 2, 1] : List ℤ).zip ([10, 20, 30, 40] : List ℚ)))).map
      fun g => (g.1, g.2.length)) = maximalRuns ([1, 1, 2, 1] : List ℤ) :=
  ⟨by decide, group_by_adjacent_runs.1 _ _ (by decide)⟩

/-- Claim C2: the consistency validator checks, in this order: (1) all
seven field sequences have equal length, (2) iterations is constant,
(3) width is constant, (4) tasks = steps × width for every record; it
fails on the first violated check (aborting the file, so no CSV — the run
ends in an error), and a successful run implies all four checks held. -/
theorem analyze_validator_order (nodes cores : ℤ) (threshold : ℚ)
    (pf pb : Option ℚ) (t : Table) :
    (same (columnLengths t) = false →
      analyze nodes cores threshold pf pb t = .error .assertLengths) ∧
    (same (columnLengths t) = true → same t.iterations = false →
      analyze nodes cores threshold pf pb t = .error .assertIterations) ∧
    (same (columnLengths t) = true → same t.iterations = true →
      same t.width = false →
      analyze nodes cores threshold pf pb t = .error .assertWidth) ∧
    (same (columnLengths t) = true → same t.iterations = true →
      same t.width = true → tasksMatch t = false →
      analyze nodes cores threshold pf pb t = .error .assertTasksEq) ∧
    (∀ out, analyze nodes cores threshold pf pb t = .ok out →
      same (columnLengths t) = true ∧ same t.iterations = true ∧
      same t.width = true ∧ tasksMatch t = true) := by
  refine ⟨?_, ?_, ?_, ?_, ?_⟩
  · intro h1; simp [analyze, h1]
  · intro h1 h2; simp [analyze, h1, h2]
  · intro h1 h2 h3; simp [analyze, h1, h2, h3]
  · intro h1 h2 h3 h4; simp [analyze, h1, h2, h3, h4]
  · intro out h
    obtain ⟨c1, c2, c3, c4, _⟩ := analyze_ok_elim h
    exact ⟨c1, c2, c3, c4⟩

/-- Witness for C2: one table per violated check, and a fully consistent
table for the success direction. -/
theorem analyze_validator_order_witness :
    (same (columnLengths tblBadLen) = false ∧
      analyze 1 1 0 none none tblBadLen = .error .assertLengths) ∧
    (same (columnLengths tblBadIter) = true ∧
      same tblBadIter.iterations = false ∧
      analyze 1 1 0 none none tblBadIter = .error .assertIterations) ∧
    (same (columnLengths tblBadWidth) = true ∧
      same tblBadWidth.iterations = true ∧ same tblBadWidth.width = false ∧
      analyze 1 1 0 none none tblBadWidth = .error .assertWidth) ∧
    (same (columnLengths tblBadTasks) = true ∧
      same tblBadTasks.iterations = true ∧ same tblBadTasks.width = true ∧
      tasksMatch tblBadTasks = false ∧
      analyze 1 1 0 none none tblBadTasks = .error .assertTasksEq) ∧
    (analyze 1 1 0 none none tblOne = .ok (outputOf 1 1 none none tblOne) ∧
      tasksMatch tblOne = true) := by
  refine ⟨⟨by decide, ?_⟩, ⟨by decide, by decide, ?_⟩,
    ⟨by decide, by decide, by decide, ?_⟩,
    ⟨by decide, by decide, by decide, by decide, ?_⟩, rfl, ?_⟩
  · exact (analyze_validator_order 1 1 0 none none tblBadLen).1 (by decide)
  · exact (analyze_validator_order 1 1 0 none none tblBadIter).2.1
      (by decide) (by decide)
  · exact (analyze_validator_order 1 1 0 none none tblBadWidth).2.2.1
      (by decide) (by decide) (by decide)
  · exact (analyze_validator_order 1 1 0 none none tblBadTasks).2.2.2.1
      (by decide) (by decide) (by decide) (by decide)
  · exact ((analyze_validator_order 1 1 0 none none tblOne).2.2.2.2 _ rfl).2.2.2

/-- Counterexample to C3 as stated: with the peak compute bandwidth
configured as 0.0 (and the peak memory bandwidth absent) exactly one peak
parameter is configured, the run succeeds, and yet no efficiency column is
appended — `if peak_flops:` tests truthiness, and 0.0 is falsy. -/
theorem efficiency_zero_peak_counterexample :
    analyze 1 1 0 (some 0) none tblOne = .ok (outputOf 1 1 (some 0) none tblOne) ∧
    (outputOf 1 1 (some 0) none tblOne).efficiency = none :=
  ⟨rfl, rfl⟩

/-- Claim C3 (amended): when exactly one peak parameter is configured with
a nonzero value, exactly one efficiency column is appended: from a truthy
peak compute bandwidth it is (flops / elapsed / nodes) / peak_flops per
row, otherwise from a truthy peak memory bandwidth it is
(bytes / elapsed / nodes) / peak_bytes per row; when neither peak
parameter is configured with a nonzero value, no efficiency column
appears in the output at all. -/
theorem analyze_efficiency_modes (nodes cores : ℤ) (threshold : ℚ)
    (pf pb : Option ℚ) (t : Table) :
    ∀ out, analyze nodes cores threshold pf pb t = .ok out →
      (truthy pf = true →
        out.efficiency = some (out.flops.zipWith
          (fun f e => ((f : ℚ) / e / (nodes : ℚ)) / pf.getD 0) out.elapsed)) ∧
      (truthy pf = false → truthy pb = true →
        out.efficiency = some (out.bytes.zipWith
          (fun b e => ((b : ℚ) / e / (nodes : ℚ)) / pb.getD 0) out.elapsed)) ∧
      (truthy pf = false → truthy pb = false → out.efficiency = none) := by
  intro out h
  obtain ⟨_, _, _, _, _, _, _, _, hout⟩ := analyze_ok_elim h
  subst hout
  rw [outputOf_efficiency]
  refine ⟨fun hf => ?_, fun hf hb => ?_, fun hf hb => ?_⟩
  · rw [if_pos hf]
    rfl
  · rw [if_neg (by simp [hf]), if_pos hb]
    rfl
  · rw [if_neg (by simp [hf]), if_neg (by simp [hb])]

/-- Witness for the amended C3: all three modes at concrete inputs. -/
theorem analyze_efficiency_modes_witness :
    (analyze 2 1 0 (some 2) none tblOne = .ok (outputOf 2 1 (some 2) none tblOne) ∧
      truthy (some (2 : ℚ)) = true ∧
      (outputOf 2 1 (some 2) none tblOne).efficiency =
        some ((outputOf 2 1 (some 2) none tblOne).flops.zipWith
          (fun f e => ((f : ℚ) / e / ((2 : ℤ) : ℚ)) / (some (2 : ℚ)).getD 0)
          (outputOf 2 1 (some 2) none tblOne).elapsed)) ∧
    (analyze 2 1 0 none (some 3) tblOne = .ok (outputOf 2 1 none (some 3) tblOne) ∧
      truthy (none : Option ℚ) = false ∧ truthy (some (3 : ℚ)) = true ∧
      (outputOf 2 1 none (some 3) tblOne).efficiency =
        some ((outputOf 2 1 none (some 3) tblOne).bytes.zipWith
          (fun b e => ((b : ℚ) / e / ((2 : ℤ) : ℚ)) / (some (3 : ℚ)).getD 0)
          (outputOf 2 1 none (some 3) tblOne).elapsed)) ∧
    (analyze 2 1 0 none none tblOne = .ok (outputOf 2 1 none none tblOne) ∧
      (outputOf 2 1 none none tblOne).efficiency = none) :=
  ⟨⟨rfl, rfl, (analyze_efficiency_modes 2 1 0 (some 2) none tblOne _ rfl).1 rfl⟩,
   ⟨rfl, rfl, rfl,
     (analyze_efficiency_modes 2 1 0 none (some 3) tblOne _ rfl).2.1 rfl rfl⟩,
   ⟨rfl, (analyze_efficiency_modes 2 1 0 none none tblOne _ rfl).2.2 rfl rfl⟩⟩

/-- Claim C4: if both peak-bandwidth parameters are supplied (whatever the
values), the driver raises the configuration error before any input file
is opened or processed — the whole run halts with no output for any file. -/
theorem driver_mutual_exclusion (inputs : List Table) (s : Option String)
    (nodes cores : ℤ) (threshold a b : ℚ) :
    driver inputs s nodes cores threshold (some a) (some b) =
      .error .configError := rfl

/-- Claim C5: for every aggregated row, time_per_task equals
elapsed / tasks × nodes × cores × 1000, with elapsed and tasks the row's
aggregated values and nodes, cores the run-topology parameters. -/
theorem analyze_time_per_task (nodes cores : ℤ) (threshold : ℚ)
    (pf pb : Option ℚ) (t : Table) :
    ∀ out, analyze nodes cores threshold pf pb t = .ok out →
      out.time_per_task = out.elapsed.zipWith
        (fun e ta => e / (ta : ℚ) * (nodes : ℚ) * (cores : ℚ) * 1000)
        out.tasks := by
  intro out h
  obtain ⟨_, _, _, _, _, _, _, _, hout⟩ := analyze_ok_elim h
  subst hout
  rfl

/-- Witness for C5: at the one-record table (elapsed 1, tasks 6) with
2 nodes and 3 cores the single time_per_task value is 1/6·2·3·1000 = 1000. -/
theorem analyze_time_per_task_witness :
    analyze 2 3 0 none none tblOne = .ok (outputOf 2 3 none none tblOne) ∧
    (outputOf 2 3 none none tblOne).time_per_task =
      (outputOf 2 3 none none tblOne).elapsed.zipWith
        (fun e ta => e / (ta : ℚ) * ((2 : ℤ) : ℚ) * ((3 : ℤ) : ℚ) * 1000)
        (outputOf 2 3 none none tblOne).tasks ∧
    (outputOf 2 3 none none tblOne).time_per_task = [1000] :=
  ⟨rfl, analyze_time_per_task 2 3 0 none none tblOne _ rfl, by
    norm_num [outputOf, elapsedAgg, tasksAgg, groupsOf, group_by, groupByGo,
      gElapsed, gTasks, npMean, tblOne]⟩

/-- Claim C6: within every group the tasks, flops and bytes values are
identical across all member records whenever a run succeeds, the
aggregated row takes the first record's value for each, and if any member
diverges in any of these three fields the file is aborted (enforced by a
check: no successful output exists). -/
theorem analyze_group_homogeneity (nodes cores : ℤ) (threshold : ℚ)
    (pf pb : Option ℚ) (t : Table) :
    (∀ out, analyze nodes cores threshold pf pb t = .ok out →
      (∀ g ∈ groupsOf t,
        (∀ x ∈ gTasks g, ∀ y ∈ gTasks g, x = y) ∧
        (∀ x ∈ gFlops g, ∀ y ∈ gFlops g, x = y) ∧
        (∀ x ∈ gBytes g, ∀ y ∈ gBytes g, x = y)) ∧
      out.tasks = (groupsOf t).map (fun g => (gTasks g).headI) ∧
      out.flops = (groupsOf t).map (fun g => (gFlops g).headI) ∧
      out.bytes = (groupsOf t).map (fun g => (gBytes g).headI)) ∧
    ((∃ g ∈ groupsOf t, same (gTasks g) = false ∨ same (gFlops g) = false ∨
        same (gBytes g) = false) →
      ∀ out, analyze nodes cores threshold pf pb t ≠ .ok out) := by
  constructor
  · intro out h
    obtain ⟨_, _, _, _, _, hT, hF, hB, hout⟩ := analyze_ok_elim h
    subst hout
    have hT2 : ((groupsOf t).map fun g => same (gTasks g)).all id = true := hT
    have hF2 : ((groupsOf t).map fun g => same (gFlops g)).all id = true := hF
    have hB2 : ((groupsOf t).map fun g => same (gBytes g)).all id = true := hB
    refine ⟨fun g hg => ?_, rfl, rfl, rfl⟩
    exact ⟨(same_eq_true_iff _).mp (all_id_map_elim hT2 g hg),
           (same_eq_true_iff _).mp (all_id_map_elim hF2 g hg),
           (same_eq_true_iff _).mp (all_id_map_elim hB2 g hg)⟩
  · rintro ⟨g, hg, hdiv⟩ out h
    obtain ⟨_, _, _, _, _, hT, hF, hB, _⟩ := analyze_ok_elim h
    have hT2 : ((groupsOf t).map fun g => same (gTasks g)).all id = true := hT
    have hF2 : ((groupsOf t).map fun g => same (gFlops g)).all id = true := hF
    have hB2 : ((groupsOf t).map fun g => same (gBytes g)).all id = true := hB
    rcases hdiv with hd | hd | hd
    · exact absurd (all_id_map_elim hT2 g hg) (by simp [hd])
    · exact absurd (all_id_map_elim hF2 g hg) (by simp [hd])
    · exact absurd (all_id_map_elim hB2 g hg) (by simp [hd])

/-- Witness for C6: a homogeneous two-record group succeeds and takes the
first record's tasks values, while a group with divergent flops makes the
run fail. -/
theorem analyze_group_homogeneity_witness :
    (analyze 1 1 0 none none tblTwo = .ok (outputOf 1 1 none none tblTwo) ∧
      (outputOf 1 1 none none tblTwo).tasks =
        (groupsOf tblTwo).map fun g => (gTasks g).headI) ∧
    ((∃ g ∈ groupsOf tblDivFlops,
        same (gTasks g) = false ∨ same (gFlops g) = false ∨
        same (gBytes g) = false) ∧
      ∀ out, analyze 1 1 0 none none tblDivFlops ≠ .ok out) := by
  have hdiv : ∃ g ∈ groupsOf tblDivFlops,
      same (gTasks g) = false ∨ same (gFlops g) = false ∨
      same (gBytes g) = false := by decide
  exact ⟨⟨rfl, ((analyze_group_homogeneity 1 1 0 none none tblTwo).1 _ rfl).2.1⟩,
    hdiv, (analyze_group_homogeneity 1 1 0 none none tblDivFlops).2 hdiv⟩

/-- Claim C7: the std column of every aggregated row is the population
standard deviation (divisor = group size, not size minus one) of the
group's elapsed values; for every group of exactly one record std is
exactly 0; and on a two-element group the population form gives
|a − b| / 2 (the sample form would give |a − b| / √2). -/
theorem analyze_std_population (nodes cores : ℤ) (threshold : ℚ)
    (pf pb : Option ℚ) (t : Table) :
    (∀ out, analyze nodes cores threshold pf pb t = .ok out →
      out.std = (groupsOf t).map fun g => npStd (gElapsed g)) ∧
    (∀ out, analyze nodes cores threshold pf pb t = .ok out →
      ∀ i, out.reps.get? i = some 1 → out.std.get? i = some 0) ∧
    (∀ a b : ℚ, npStd [a, b] = |((a : ℚ) : ℝ) - ((b : ℚ) : ℝ)| / 2) := by
  refine ⟨?_, ?_, ?_⟩
  · intro out h
    obtain ⟨_, _, _, _, _, _, _, _, hout⟩ := analyze_ok_elim h
    subst hout
    rfl
  · intro out h i hrep
    obtain ⟨_, _, _, _, _, _, _, _, hout⟩ := analyze_ok_elim h
    subst hout
    rw [outputOf_reps, List.get?_map] at hrep
    rw [outputOf_std, List.get?_map]
    cases hgi : (groupsOf t).get? i with
    | none => rw [hgi] at hrep; exact Option.noConfusion hrep
    | some g =>
      rw [hgi] at hrep
      have hlen : g.2.length = 1 := by simpa using hrep
      obtain ⟨v, hv⟩ := List.length_eq_one.mp hlen
      have : gElapsed g = [v.1] := by simp [gElapsed, hv]
      simp [this, npStd_singleton]
  · intro a b
    have hm : npMean [a, b] = (a + b) / 2 := by
      simp only [npMean, List.sum_cons, List.sum_nil, List.length_cons,
        List.length_nil]
      push_cast
      ring
    have hv : npVar [a, b] = ((a - b) / 2) ^ 2 := by
      simp only [npVar, hm, List.map_cons, List.map_nil, List.sum_cons,
        List.sum_nil, List.length_cons, List.length_nil]
      push_cast
      ring
    rw [npStd, hv]
    push_cast
    rw [Real.sqrt_sq_eq_abs, abs_div]
    norm_num

/-- Witness for C7: the two-record group's std column, the zero std of a
single-record group, and the two-element closed form at elapsed values 1
and 3. -/
theorem analyze_std_population_witness :
    (analyze 1 1 0 none none tblTwo = .ok (outputOf 1 1 none none tblTwo) ∧
      (outputOf 1 1 none none tblTwo).std =
        (groupsOf tblTwo).map fun g => npStd (gElapsed g)) ∧
    (analyze 1 1 0 none none tblOne = .ok (outputOf 1 1 none none tblOne) ∧
      (outputOf 1 1 none none tblOne).reps.get? 0 = some 1 ∧
      (outputOf 1 1 none none tblOne).std.get? 0 = some 0) ∧
    npStd [(1 : ℚ), 3] = |((1 : ℚ) : ℝ) - ((3 : ℚ) : ℝ)| / 2 :=
  ⟨⟨rfl, (analyze_std_population 1 1 0 none none tblTwo).1 _ rfl⟩,
   ⟨rfl, by decide,
     (analyze_std_population 1 1 0 none none tblOne).2.1 _ rfl 0 (by decide)⟩,
   (analyze_std_population 1 1 0 none none tblOne).2.2 1 3⟩

/-- Claim C8: the threshold and summary parameters do not influence the
produced output — for any fixed inputs, nodes, cores and peak parameters,
two runs differing only in threshold and/or summary produce identical
results (hence character-for-character identical CSV output, the CSV being
a function of the result table). -/
theorem driver_ignores_threshold_summary (inputs : List Table)
    (s s' : Option String) (nodes cores : ℤ) (th th' : ℚ)
    (pf pb : Option ℚ) :
    driver inputs s nodes cores th pf pb =
      driver inputs s' nodes cores th' pf pb := rfl

/-- Claim C9: on a file where no field pattern matches (all seven columns
empty), the four consistency checks pass vacuously, and processing then
fails in the aggregation step with the unpacking error before any CSV is
written — the file is not reported as passing with an empty output table. -/
theorem analyze_empty_input (nodes cores : ℤ) (threshold : ℚ)
    (pf pb : Option ℚ) :
    same (columnLengths emptyTable) = true ∧
    same emptyTable.iterations = true ∧
    same emptyTable.width = true ∧
    tasksMatch emptyTable = true ∧
    analyze nodes cores threshold pf pb emptyTable = .error .unpackError :=
  ⟨rfl, rfl, rfl, rfl, rfl⟩

/-- Claim C10: a peak parameter supplied as 0.0 counts as supplied for the
mutual-exclusion configuration error (the exclusivity check tests
presence), yet when exactly one peak parameter is supplied with value 0.0
no efficiency column is produced (the formula selection tests truthiness). -/
theorem peak_zero_presence_vs_truthiness :
    (∀ (inputs : List Table) (s : Option String) (nodes cores : ℤ)
        (th b : ℚ),
      driver inputs s nodes cores th (some 0) (some b) = .error .configError) ∧
    (∀ (inputs : List Table) (s : Option String) (nodes cores : ℤ)
        (th a : ℚ),
      driver inputs s nodes cores th (some a) (some 0) = .error .configError) ∧
    (∀ (nodes cores : ℤ) (th : ℚ) (t : Table) out,
      analyze nodes cores th (some 0) none t = .ok out →
        out.efficiency = none) ∧
    (∀ (nodes cores : ℤ) (th : ℚ) (t : Table) out,
      analyze nodes cores th none (some 0) t = .ok out →
        out.efficiency = none) := by
  refine ⟨fun _ _ _ _ _ _ => rfl, fun _ _ _ _ _ _ => rfl, ?_, ?_⟩
  · intro nodes cores th t out h
    obtain ⟨_, _, _, _, _, _, _, _, hout⟩ := analyze_ok_elim h
    subst hout
    rfl
  · intro nodes cores th t out h
    obtain ⟨_, _, _, _, _, _, _, _, hout⟩ := analyze_ok_elim h
    subst hout
    rfl

/-- Witness for C10: a zero peak value triggers the configuration error
when the other peak is also supplied, and suppresses the efficiency
column when it is the only one supplied. -/
theorem peak_zero_presence_vs_truthiness_witness :
    driver [tblOne] none 1 1 0 (some 0) (some 5) = .error .configError ∧
    (analyze 1 1 0 (some 0) none tblTwo = .ok (outputOf 1 1 (some 0) none tblTwo) ∧
      (outputOf 1 1 (some 0) none tblTwo).efficiency = none) ∧
    (analyze 1 1 0 none (some 0) tblTwo = .ok (outputOf 1 1 none (some 0) tblTwo) ∧
      (outputOf 1 1 none (some 0) tblTwo).efficiency = none) :=
  ⟨peak_zero_presence_vs_truthiness.1 [tblOne] none 1 1 0 5,
   ⟨rfl, peak_zero_presence_vs_truthiness.2.2.1 1 1 0 tblTwo _ rfl⟩,
   ⟨rfl, peak_zero_presence_vs_truthiness.2.2.2 1 1 0 tblTwo _ rfl⟩⟩

end StepsChart
